import Mathlib

/-!
Verification of the song-association-game room store, round state machine and
lyrics word-matching, shallowly embedded from the repository sources:

* `server.js` — the authoritative WebSocket room store (message handlers
  `add-player`, `remove-player`, `update-room`, `player-submission`,
  `round-timeout`, `round-skip`, and the `close` cleanup).
* `src/App.tsx` — the client (`handleSubmit`, `handleReshuffleWord`).
* the lyrics checker module (`getWordVariants`, `verifyLyricsContainWord`).

Pure data is embedded as Lean structures; the JS `Math.random()` draws and
`crypto.randomUUID()` results are passed in as explicit parameters; the
external lyrics fetch is represented by its result value.  All definitions are
executable so that concrete runs can be settled by `decide`.
-/

namespace SongGame

/-! ## Data model (server.js room object) -/

/-- A roster entry: `{ id, name, deviceId }` (server.js `add-player`). -/
structure Player where
  id : String
  name : String
  deviceId : String
deriving DecidableEq, Repr

/-- A scoreboard entry: `{ id, name, score }` (server.js `player-submission`). -/
structure ScoreEntry where
  id : String
  name : String
  score : Nat
deriving DecidableEq, Repr

/-- Round outcome tag: `'success' | 'timeout' | 'skipped'`. -/
inductive Outcome where
  | success
  | timedOut
  | skipped
deriving DecidableEq, Repr

/-- A history entry `{ word, outcome, winnerId?, song?, artist? }`;
`success` entries carry `winnerId/song/artist`, the others carry none. -/
structure HistoryEntry where
  word : String
  outcome : Outcome
  winnerId : Option String := none
  song : Option String := none
  artist : Option String := none
deriving DecidableEq, Repr

/-- Room phase: `'lobby' | 'playing' | 'leaderboard'`. -/
inductive Phase where
  | lobby
  | playing
  | leaderboard
deriving DecidableEq, Repr

/-- The room state held in the server's in-memory `rooms` map (server.js
`join-room` creation literal). -/
structure Room where
  roomId : String
  players : List Player
  phase : Phase
  roundDuration : Nat
  roundWords : List String
  currentRound : Nat
  playersWithScores : List ScoreEntry
  history : List HistoryEntry
  gameMasterId : Option String
  lastUpdated : Nat
deriving DecidableEq, Repr

/-- The fresh room created by `join-room` when the code is absent. -/
def initialRoom (roomId : String) (now : Nat) : Room :=
  { roomId := roomId
    players := []
    phase := .lobby
    roundDuration := 20
    roundWords := []
    currentRound := 0
    playersWithScores := []
    history := []
    gameMasterId := none
    lastUpdated := now }

/-! ## Room store operations (server.js message handlers)

Each handler is a function of the room state plus the message fields; the
`Date.now()` timestamp and the generated player id are explicit parameters.
Handlers that are authority-gated return `Room × Bool`, the `Bool` recording
whether the mutation was accepted (and hence broadcast). -/

/-- In-place rename of the first roster entry whose `deviceId` matches, as
performed by `existingPlayer.name = playerName` after
`room.players.find(p => p.deviceId === devId)`. -/
def renameFirst : List Player → String → String → List Player
  | [], _, _ => []
  | p :: ps, dev, n =>
    if p.deviceId == dev then { p with name := n } :: ps
    else p :: renameFirst ps dev n

/-- `case 'add-player'` (server.js): if the device already has a roster entry,
update its name (the source guards the write with a `!==` test, which is
equivalent to assigning unconditionally); else append a new player with the
generated id, and make it game master if none is set. -/
def addPlayer (room : Room) (devId playerName freshId : String) (now : Nat) : Room :=
  match room.players.find? (fun p => p.deviceId == devId) with
  | some _ =>
    { room with players := renameFirst room.players devId playerName, lastUpdated := now }
  | none =>
    let newPlayer : Player := { id := freshId, name := playerName, deviceId := devId }
    { room with
        players := room.players ++ [newPlayer]
        gameMasterId :=
          match room.gameMasterId with
          | none => some freshId
          | some g => some g
        lastUpdated := now }

/-- `case 'remove-player'` (server.js), also the `ws.on('close')` cleanup:
filter out the device's entries; if the game master no longer appears in the
filtered roster, reassign to the first remaining player or `null`. -/
def removePlayer (room : Room) (devId : String) (now : Nat) : Room :=
  let remaining := room.players.filter (fun p => p.deviceId != devId)
  let gm : Option String :=
    match room.gameMasterId with
    | none => none
    | some g =>
      if remaining.any (fun p => p.id == g) then some g
      else
        match remaining with
        | [] => none
        | p :: _ => some p.id
  { room with players := remaining, gameMasterId := gm, lastUpdated := now }

/-- The partial-state patch carried by an `update-room` message: every room
field may be present or absent; `Object.assign(room, updates)` overwrites
exactly the present ones. -/
structure RoomUpdates where
  players : Option (List Player) := none
  phase : Option Phase := none
  roundDuration : Option Nat := none
  roundWords : Option (List String) := none
  currentRound : Option Nat := none
  playersWithScores : Option (List ScoreEntry) := none
  history : Option (List HistoryEntry) := none
  gameMasterId : Option (Option String) := none
deriving DecidableEq, Repr

/-- `Object.assign(room, updates)` for a typed partial patch. -/
def applyUpdates (room : Room) (u : RoomUpdates) : Room :=
  { room with
      players := u.players.getD room.players
      phase := u.phase.getD room.phase
      roundDuration := u.roundDuration.getD room.roundDuration
      roundWords := u.roundWords.getD room.roundWords
      currentRound := u.currentRound.getD room.currentRound
      playersWithScores := u.playersWithScores.getD room.playersWithScores
      history := u.history.getD room.history
      gameMasterId := u.gameMasterId.getD room.gameMasterId }

/-- The authority check shared by `update-room`, `round-timeout` and
`round-skip`: `player = room.players.find(p => p.deviceId === devId)` and
`player && player.id === room.gameMasterId`. -/
def isGameMaster (room : Room) (devId : String) : Bool :=
  match room.players.find? (fun p => p.deviceId == devId) with
  | some p => room.gameMasterId == some p.id
  | none => false

/-- `case 'update-room'` (server.js): game-master-gated `Object.assign` patch.
Returns the new room and whether the mutation was accepted/broadcast. -/
def updateRoom (room : Room) (devId : String) (u : RoomUpdates) (now : Nat) : Room × Bool :=
  if isGameMaster room devId then
    ({ applyUpdates room u with lastUpdated := now }, true)
  else (room, false)

/-- Increment the score of the first scoreboard entry with the given id, as
`playerWithScore.score += 1` after a `find`. -/
def bumpFirst : List ScoreEntry → String → List ScoreEntry
  | [], _ => []
  | s :: ss, pid =>
    if s.id == pid then { s with score := s.score + 1 } :: ss
    else s :: bumpFirst ss pid

/-- `case 'player-submission'` (server.js): accepted when the calling device's
roster entry exists and its id equals the claimed `playerId`.  The source
pushes a fresh `{id, name, score: 0}` entry when absent and then increments it,
which nets to appending an entry with score 1.  Appends a `success` history
entry, advances `currentRound`, and flips the phase to `leaderboard` when the
new round index reaches the word count. -/
def playerSubmission (room : Room) (devId playerId word song artist : String) (now : Nat) :
    Room × Bool :=
  match room.players.find? (fun p => p.deviceId == devId) with
  | some player =>
    if player.id == playerId then
      let scores :=
        if room.playersWithScores.any (fun s => s.id == playerId) then
          bumpFirst room.playersWithScores playerId
        else
          room.playersWithScores ++ [{ id := playerId, name := player.name, score := 1 }]
      ({ room with
          playersWithScores := scores
          history := room.history ++
            [{ word := word, outcome := .success, winnerId := some playerId,
               song := some song, artist := some artist }]
          currentRound := room.currentRound + 1
          phase :=
            if room.roundWords.length ≤ room.currentRound + 1 then .leaderboard
            else room.phase
          lastUpdated := now }, true)
    else (room, false)
  | none => (room, false)

/-- `case 'round-timeout'` (server.js): game-master-gated; appends a `timeout`
history entry and advances the round exactly like a submission. -/
def roundTimeout (room : Room) (devId word : String) (now : Nat) : Room × Bool :=
  if isGameMaster room devId then
    ({ room with
        history := room.history ++ [{ word := word, outcome := .timedOut }]
        currentRound := room.currentRound + 1
        phase :=
          if room.roundWords.length ≤ room.currentRound + 1 then .leaderboard
          else room.phase
        lastUpdated := now }, true)
  else (room, false)

/-- `case 'round-skip'` (server.js): game-master-gated; appends a `skipped`
history entry and advances the round exactly like a submission. -/
def roundSkip (room : Room) (devId word : String) (now : Nat) : Room × Bool :=
  if isGameMaster room devId then
    ({ room with
        history := room.history ++ [{ word := word, outcome := .skipped }]
        currentRound := room.currentRound + 1
        phase :=
          if room.roundWords.length ≤ room.currentRound + 1 then .leaderboard
          else room.phase
        lastUpdated := now }, true)
  else (room, false)

/-! ## Sequences of room-store operations -/

/-- One inbound room mutation, tagged with its message fields (the `disconnect`
constructor is the `ws.on('close')` cleanup, which runs the `remove-player`
body). -/
inductive Op where
  | addPlayer (devId playerName freshId : String) (now : Nat)
  | removePlayer (devId : String) (now : Nat)
  | updateRoom (devId : String) (u : RoomUpdates) (now : Nat)
  | playerSubmission (devId playerId word song artist : String) (now : Nat)
  | roundTimeout (devId word : String) (now : Nat)
  | roundSkip (devId word : String) (now : Nat)
  | disconnect (devId : String) (now : Nat)

/-- Apply one operation to a room (run-to-completion, as the single-threaded
server processes one message at a time). -/
def applyOp (room : Room) : Op → Room
  | .addPlayer d n f t => addPlayer room d n f t
  | .removePlayer d t => removePlayer room d t
  | .updateRoom d u t => (updateRoom room d u t).1
  | .playerSubmission d p w s a t => (playerSubmission room d p w s a t).1
  | .roundTimeout d w t => (roundTimeout room d w t).1
  | .roundSkip d w t => (roundSkip room d w t).1
  | .disconnect d t => removePlayer room d t

/-- Run a message sequence from a freshly created room. -/
def runOps (roomId : String) (now : Nat) (ops : List Op) : Room :=
  ops.foldl applyOp (initialRoom roomId now)

/-- The game-master/roster consistency predicate of the spec: `gameMasterId`
is `null` iff the roster is empty, and otherwise names some roster entry. -/
def gmInvB (room : Room) : Bool :=
  match room.gameMasterId with
  | none => room.players.isEmpty
  | some g => room.players.any (fun p => p.id == g)

/-- Propositional form of `gmInvB`. -/
def gmInv (room : Room) : Prop := gmInvB room = true

instance (room : Room) : Decidable (gmInv room) := by
  unfold gmInv; infer_instance

/-! ## Lyrics verifier (lyrics checker module)

JS string primitives are modelled over the character list of a `String`;
`toLowerCase`/`trim`/`\w`/`\b` behave identically on the ASCII range that the
game's words and the relevant tests exercise. -/

/-- JS regex `\w` word character: `[A-Za-z0-9_]`. -/
def isWordChar (c : Char) : Bool := c.isAlpha || c.isDigit || c == '_'

/-- JS `toLowerCase()` (ASCII case mapping). -/
def jsToLower (s : String) : String := ⟨s.data.map Char.toLower⟩

/-- Whitespace recognized by JS `trim()` (the ASCII cases). -/
def isJsSpace (c : Char) : Bool := c == ' ' || c == '\t' || c == '\n' || c == '\r'

/-- JS `trim()`. -/
def jsTrim (s : String) : String :=
  ⟨((s.data.dropWhile isJsSpace).reverse.dropWhile isJsSpace).reverse⟩

/-- JS `endsWith(suffix)`. -/
def jsEndsWith (s suf : String) : Bool := List.isSuffixOf suf.data s.data

/-- JS `slice(0, -n)`: the string without its last `n` characters. -/
def jsDropLast (s : String) (n : Nat) : String := ⟨s.data.take (s.data.length - n)⟩

/-- JS `length` (all characters involved are ASCII). -/
def jsLength (s : String) : Nat := s.data.length

/-- `Set.add` on an insertion-ordered list: append the value if absent. -/
def addVariant (l : List String) (v : String) : List String :=
  if v ∈ l then l else l ++ [v]

/-- The singular-form block of `getWordVariants`: the `endsWith('s')` branch
with its `else if` chain, in source order (so the `-es` test is checked before
the `-ies` and `-ves` tests). -/
def singularVariants (lower : String) : List String :=
  if jsEndsWith lower "s" && decide (1 < jsLength lower) then
    if jsEndsWith lower "es" && decide (2 < jsLength lower) then
      addVariant [lower] (jsDropLast lower 2)
    else if jsEndsWith lower "ies" && decide (3 < jsLength lower) then
      addVariant [lower] (jsDropLast lower 3 ++ "y")
    else if jsEndsWith lower "ves" && decide (3 < jsLength lower) then
      addVariant (addVariant [lower] (jsDropLast lower 3 ++ "f")) (jsDropLast lower 3 ++ "fe")
    else if !jsEndsWith lower "ss" then
      addVariant [lower] (jsDropLast lower 1)
    else [lower]
  else [lower]

/-- `if (!lower.endsWith('s')) variants.add(lower + 's')`. -/
def pluralSVariant (lower : String) (vs : List String) : List String :=
  if !jsEndsWith lower "s" then addVariant vs (lower ++ "s") else vs

/-- `if (/[sxz]|[cs]h$/.test(lower) && !lower.endsWith('es'))
variants.add(lower + 'es')` — note the regex alternation: an `s`, `x` or `z`
anywhere in the word, or a trailing `ch`/`sh`. -/
def pluralEsVariant (lower : String) (vs : List String) : List String :=
  if (lower.data.any (fun c => c == 's' || c == 'x' || c == 'z')
        || jsEndsWith lower "ch" || jsEndsWith lower "sh")
      && !jsEndsWith lower "es" then
    addVariant vs (lower ++ "es")
  else vs

/-- Last character is one of `aeiou` (JS `/[aeiou]$/`). -/
def lastCharIsVowel (s : String) : Bool :=
  match s.data.getLast? with
  | some c => c == 'a' || c == 'e' || c == 'i' || c == 'o' || c == 'u'
  | none => false

/-- The `-y` to `-ies` block of `getWordVariants`. -/
def pluralIesVariant (lower : String) (vs : List String) : List String :=
  if jsEndsWith lower "y" && decide (1 < jsLength lower)
      && jsDropLast lower 1 != "" && !lastCharIsVowel (jsDropLast lower 1) then
    addVariant vs (jsDropLast lower 1 ++ "ies")
  else vs

/-- The `-f` to `-ves` block of `getWordVariants`. -/
def pluralFVesVariant (lower : String) (vs : List String) : List String :=
  if jsEndsWith lower "f" && decide (1 < jsLength lower) then
    addVariant vs (jsDropLast lower 1 ++ "ves")
  else vs

/-- The `-fe` to `-ves` block of `getWordVariants`. -/
def pluralFeVesVariant (lower : String) (vs : List String) : List String :=
  if jsEndsWith lower "fe" && decide (2 < jsLength lower) then
    addVariant vs (jsDropLast lower 2 ++ "ves")
  else vs

/-- `getWordVariants` (lyrics checker module, lines 118-175): lowercase and
trim the word; if that is empty return the original word alone; otherwise
start from the singleton set of the lowered word and run the singular block
followed by the five pluralization blocks in source order. -/
def getWordVariants (word : String) : List String :=
  let lower := jsTrim (jsToLower word)
  if lower = "" then [word]
  else
    pluralFeVesVariant lower
      (pluralFVesVariant lower
        (pluralIesVariant lower
          (pluralEsVariant lower
            (pluralSVariant lower (singularVariants lower)))))

/-- `true` when position `i - 1` of `l` holds a word character (`false` at the
start of the string). -/
def prevWordCharAt (l : List Char) : Nat → Bool
  | 0 => false
  | j + 1 =>
    match l[j]? with
    | some c => isWordChar c
    | none => false

/-- `true` when position `i` of `l` holds a word character (`false` past the
end of the string). -/
def wordCharAt (l : List Char) (i : Nat) : Bool :=
  match l[i]? with
  | some c => isWordChar c
  | none => false

/-- JS regex `\b` at input position `i`: a word/non-word transition, with both
ends of the string counting as non-word. -/
def wordBoundaryAt (l : List Char) (i : Nat) : Bool :=
  prevWordCharAt l i != wordCharAt l i

/-- The literal characters `v` occur in `l` starting at position `i`. -/
def literalMatchAt (l v : List Char) (i : Nat) : Bool :=
  (l.drop i).take v.length == v

/-- `new RegExp('\\b' + escapeForRegex(pat) + '\\b', 'i').test(lyrics)`:
`escapeForRegex` makes the pattern literal, the `i` flag is modelled by
lowercasing both sides, and `\b` is `wordBoundaryAt`. -/
def regexTestWholeWord (lyrics pat : String) : Bool :=
  let l := (jsToLower lyrics).data
  let v := (jsToLower pat).data
  (List.range (l.length + 1)).any fun i =>
    wordBoundaryAt l i && literalMatchAt l v i && wordBoundaryAt l (i + v.length)

/-- The word-match step of `verifyLyricsContainWord` (lines 404-412): build a
whole-word pattern from every `getWordVariants` entry and accept when some
pattern matches the lyrics. -/
def wordMatchStep (lyrics word : String) : Bool :=
  (getWordVariants word).any (fun v => regexTestWholeWord lyrics v)

/-- `{ ok, reason? }` returned by the lyrics checker. -/
structure LyricsCheckResult where
  ok : Bool
  reason : Option String := none
deriving DecidableEq, Repr

/-- `verifyLyricsContainWord` (lines 343-419) as a function of the fetch
outcome: `fetchedLyrics` stands for the first non-empty lyrics text produced by
the raced artist-variant lookups (or the cache), `none` when every attempt
failed or returned empty.  The early empty-input rejection, the not-found
reason, and the word-match step follow the source. -/
def verifyLyricsContainWord (song artist word : String) (fetchedLyrics : Option String) :
    LyricsCheckResult :=
  if jsTrim song = "" || jsTrim artist = "" then
    { ok := false, reason := some "Please provide both the song and artist." }
  else
    match fetchedLyrics with
    | none =>
      { ok := false, reason := some "Lyrics for that song were not found. Try another pick." }
    | some lyrics =>
      if wordMatchStep lyrics word then { ok := true }
      else
        { ok := false,
          reason := some ("Lyrics found but \"" ++ word ++ "\" was not detected.") }

/-! ## Client submission path (App.tsx `handleSubmit`, lines 1775-1829) -/

/-- The submission form status. -/
inductive SubStatus where
  | idle
  | validating
  | success
  | error
deriving DecidableEq, Repr

/-- The payload passed to `onSuccess` and then to the server as a
`player-submission` message. -/
structure RoundSuccessPayload where
  playerId : String
  word : String
  song : String
  artist : String
deriving DecidableEq, Repr

/-- `handleSubmit`: guards (round already complete, empty song/artist, already
validating), then the awaited `verifyLyricsContainWord` result decides between
emitting the `onSuccess` payload with status `success` and emitting nothing
with status `error`.  Returns the emitted payload (if any) and the final form
status. -/
def handleSubmit (roundComplete : Bool) (status : SubStatus)
    (song artist word myPlayerId : String) (verifyResult : LyricsCheckResult) :
    Option RoundSuccessPayload × SubStatus :=
  if roundComplete then (none, status)
  else if jsTrim song = "" || jsTrim artist = "" then (none, .error)
  else if status = .validating then (none, status)
  else if verifyResult.ok then
    (some { playerId := myPlayerId, word := word, song := song, artist := artist }, .success)
  else (none, .error)

/-- The full client-to-server submission path: `handleSubmit` emits a payload
only through `onSuccess`, which `handleRoundWin` forwards as a
`player-submission` message that the server handler applies.  When nothing is
emitted the room is untouched. -/
def submitFlow (room : Room) (devId : String) (now : Nat) (roundComplete : Bool)
    (status : SubStatus) (song artist word myPlayerId : String)
    (verifyResult : LyricsCheckResult) : Room :=
  match (handleSubmit roundComplete status song artist word myPlayerId verifyResult).1 with
  | some payload =>
    (playerSubmission room devId payload.playerId payload.word payload.song payload.artist now).1
  | none => room

/-! ## Reshuffle (App.tsx `handleReshuffleWord`, lines 1124-1157) -/

/-- `handleReshuffleWord`: `pool` stands for the `WORD_POOL` constant the
source closes over; `history`/`prev`/`currentRound` are the captured state; the
`Math.floor(Math.random() * candidates.length)` draw, always in range, is
modelled by the arbitrary index `pick` reduced modulo the candidate count.  The
used set is the history words plus `prev.slice(0, currentRound)` with the
current word deleted; if no pool word survives the filter the list is returned
unchanged, otherwise the current slot is overwritten with the picked candidate.
The `prev[currentRound]` access is meaningful for `currentRound < prev.length`,
which the theorems assume. -/
def reshuffleWord (pool : List String) (history : List HistoryEntry)
    (prev : List String) (currentRound : Nat) (pick : Nat) : List String :=
  if prev.length = 0 then prev
  else
    let used := (history.map (fun e => e.word)) ++ prev.take currentRound
    let currentWord := prev.getD currentRound ""
    let usedMinusCurrent := used.filter (fun w => w != currentWord)
    let candidates := pool.filter (fun w => !usedMinusCurrent.contains w)
    if candidates.length = 0 then prev
    else prev.set currentRound (candidates.getD (pick % candidates.length) "")

/-! ## Test fixtures -/

/-- A restriction on message sequences: every `update-room` patch leaves the
`players` and `gameMasterId` fields untouched.  All other message types
trivially satisfy it. -/
def opKeepsRoster : Op → Bool
  | .updateRoom _ u _ => u.players.isNone && u.gameMasterId.isNone
  | _ => true

/-- A two-player room mid-game (Alice is game master), used as a concrete
fixture by several witnesses. -/
def demoRoom : Room :=
  { roomId := "ABC123"
    players := [{ id := "p1", name := "Alice", deviceId := "d1" },
                { id := "p2", name := "Bob", deviceId := "d2" }]
    phase := .playing
    roundDuration := 20
    roundWords := ["w1", "w2"]
    currentRound := 0
    playersWithScores := [{ id := "p1", name := "Alice", score := 0 },
                          { id := "p2", name := "Bob", score := 0 }]
    history := []
    gameMasterId := some "p1"
    lastUpdated := 0 }

/-! ## Helper lemmas -/

theorem mem_addVariant {a : String} {l : List String} (v : String) (h : a ∈ l) :
    a ∈ addVariant l v := by
  unfold addVariant
  split
  · exact h
  · exact List.mem_append_left _ h

theorem lower_mem_singularVariants (lower : String) : lower ∈ singularVariants lower := by
  unfold singularVariants
  repeat' split
  all_goals
    first
      | exact List.mem_singleton_self _
      | exact mem_addVariant _ (List.mem_singleton_self _)
      | exact mem_addVariant _ (mem_addVariant _ (List.mem_singleton_self _))

theorem mem_pluralSVariant {a lower : String} {vs : List String} (h : a ∈ vs) :
    a ∈ pluralSVariant lower vs := by
  unfold pluralSVariant
  split
  · exact mem_addVariant _ h
  · exact h

theorem mem_pluralEsVariant {a lower : String} {vs : List String} (h : a ∈ vs) :
    a ∈ pluralEsVariant lower vs := by
  unfold pluralEsVariant
  split
  · exact mem_addVariant _ h
  · exact h

theorem mem_pluralIesVariant {a lower : String} {vs : List String} (h : a ∈ vs) :
    a ∈ pluralIesVariant lower vs := by
  unfold pluralIesVariant
  split
  · exact mem_addVariant _ h
  · exact h

theorem mem_pluralFVesVariant {a lower : String} {vs : List String} (h : a ∈ vs) :
    a ∈ pluralFVesVariant lower vs := by
  unfold pluralFVesVariant
  split
  · exact mem_addVariant _ h
  · exact h

theorem mem_pluralFeVesVariant {a lower : String} {vs : List String} (h : a ∈ vs) :
    a ∈ pluralFeVesVariant lower vs := by
  unfold pluralFeVesVariant
  split
  · exact mem_addVariant _ h
  · exact h

/-- When the lowered trimmed word is non-empty, it is among its own variants. -/
theorem lower_mem_getWordVariants (word : String) (h : jsTrim (jsToLower word) ≠ "") :
    jsTrim (jsToLower word) ∈ getWordVariants word := by
  unfold getWordVariants
  dsimp only
  rw [if_neg h]
  exact mem_pluralFeVesVariant (mem_pluralFVesVariant (mem_pluralIesVariant
    (mem_pluralEsVariant (mem_pluralSVariant (lower_mem_singularVariants _)))))

/-! ## Claim C2 -/

/-- C2: for every submission, the success mutation is gated on the lyrics
verifier: `handleSubmit` emits the `onSuccess` payload only when the awaited
`verifyLyricsContainWord` result is a successful match, so a submission whose
verification does not succeed emits nothing and the room state receives no
success mutation along the submission path. -/
theorem c2_submission_gated_by_verifier (room : Room) (devId : String) (now : Nat)
    (roundComplete : Bool) (status : SubStatus) (song artist word myPlayerId : String)
    (verifyResult : LyricsCheckResult) (h : verifyResult.ok = false) :
    (handleSubmit roundComplete status song artist word myPlayerId verifyResult).1 = none ∧
    submitFlow room devId now roundComplete status song artist word myPlayerId verifyResult
      = room := by
  have hnone :
      (handleSubmit roundComplete status song artist word myPlayerId verifyResult).1 = none := by
    unfold handleSubmit
    repeat' split
    all_goals simp_all
  refine ⟨hnone, ?_⟩
  unfold submitFlow
  rw [hnone]

/-- Witness for C2 at a concrete failed verification. -/
theorem c2_witness :
    ({ ok := false } : LyricsCheckResult).ok = false ∧
    ((handleSubmit false .idle "Song" "Artist" "cat" "p2" { ok := false }).1 = none ∧
      submitFlow (initialRoom "R" 0) "d2" 1 false .idle "Song" "Artist" "cat" "p2"
        { ok := false } = initialRoom "R" 0) :=
  ⟨rfl, c2_submission_gated_by_verifier (initialRoom "R" 0) "d2" 1 false .idle
    "Song" "Artist" "cat" "p2" { ok := false } rfl⟩

/-! ## Claim C5 -/

/-- C5: when the calling device has no roster entry whose id equals
`gameMasterId`, the `update-room`, `round-timeout` and `round-skip` handlers
are silent no-ops: the room is returned unchanged in every field and the
broadcast flag is `false`. -/
theorem c5_non_gm_mutations_noop (room : Room) (devId : String) (u : RoomUpdates)
    (w₁ w₂ : String) (t₁ t₂ t₃ : Nat)
    (h : ∀ p ∈ room.players, ¬(p.deviceId = devId ∧ room.gameMasterId = some p.id)) :
    updateRoom room devId u t₁ = (room, false) ∧
    roundTimeout room devId w₁ t₂ = (room, false) ∧
    roundSkip room devId w₂ t₃ = (room, false) := by
  have hgm : isGameMaster room devId = false := by
    unfold isGameMaster
    cases hf : room.players.find? (fun p => p.deviceId == devId) with
    | none => rfl
    | some p =>
      have hmem := List.mem_of_find?_eq_some hf
      have hdev : p.deviceId = devId := by simpa using List.find?_some hf
      have hne := h p hmem
      simp only [beq_eq_false_iff_ne, ne_eq]
      intro hgid
      exact hne ⟨hdev, hgid⟩
  refine ⟨?_, ?_, ?_⟩ <;> simp [updateRoom, roundTimeout, roundSkip, hgm]

/-- Witness for C5: a device with no roster entry at all. -/
theorem c5_witness :
    (∀ p ∈ demoRoom.players, ¬(p.deviceId = "dX" ∧ demoRoom.gameMasterId = some p.id)) ∧
    (updateRoom demoRoom "dX" {} 9 = (demoRoom, false) ∧
      roundTimeout demoRoom "dX" "w1" 9 = (demoRoom, false) ∧
      roundSkip demoRoom "dX" "w1" 9 = (demoRoom, false)) :=
  ⟨by decide, c5_non_gm_mutations_noop demoRoom "dX" {} "w1" "w1" 9 9 9 (by decide)⟩

/-! ## Claim C6 -/

theorem renameFirst_length (l : List Player) (dev n : String) :
    (renameFirst l dev n).length = l.length := by
  induction l with
  | nil => rfl
  | cons p ps ih =>
    unfold renameFirst
    split
    · simp
    · simp [ih]

theorem any_dev_renameFirst (l : List Player) (dev n d' : String) :
    (renameFirst l dev n).any (fun p => p.deviceId == d')
      = l.any (fun p => p.deviceId == d') := by
  induction l with
  | nil => rfl
  | cons p ps ih =>
    unfold renameFirst
    split
    · simp
    · simp [ih]

theorem any_id_renameFirst (l : List Player) (dev n g : String) :
    (renameFirst l dev n).any (fun p => p.id == g) = l.any (fun p => p.id == g) := by
  induction l with
  | nil => rfl
  | cons p ps ih =>
    unfold renameFirst
    split
    · simp
    · simp [ih]

theorem isEmpty_renameFirst (l : List Player) (dev n : String) :
    (renameFirst l dev n).isEmpty = l.isEmpty := by
  cases l with
  | nil => rfl
  | cons p ps =>
    unfold renameFirst
    split <;> rfl

/-- Rewriting `add-player` in its rename branch. -/
theorem addPlayer_of_find?_some {room : Room} {dev n id : String} {t : Nat} {q : Player}
    (hq : room.players.find? (fun p => p.deviceId == dev) = some q) :
    addPlayer room dev n id t
      = { room with players := renameFirst room.players dev n, lastUpdated := t } := by
  unfold addPlayer
  rw [hq]

/-- After `add-player`, the device always has a roster entry. -/
theorem any_dev_addPlayer (room : Room) (dev n id : String) (t : Nat) :
    (addPlayer room dev n id t).players.any (fun p => p.deviceId == dev) = true := by
  unfold addPlayer
  cases hf : room.players.find? (fun p => p.deviceId == dev) with
  | some q =>
    dsimp only
    rw [any_dev_renameFirst]
    have hqd : (q.deviceId == dev) = true := by simpa using List.find?_some hf
    exact List.any_eq_true.mpr ⟨q, List.mem_of_find?_eq_some hf, hqd⟩
  | none =>
    dsimp only
    simp [List.any_append]

/-- A per-index description of `renameFirst`: every slot is either untouched
or is the first matching entry with only its name overwritten. -/
theorem renameFirst_getElem? (l : List Player) (dev n : String) (j : Nat) :
    (renameFirst l dev n)[j]? = l[j]? ∨
      ∃ p, l[j]? = some p ∧ p.deviceId = dev ∧
        (renameFirst l dev n)[j]? = some { p with name := n } := by
  induction l generalizing j with
  | nil => left; rfl
  | cons p ps ih =>
    unfold renameFirst
    by_cases h : (p.deviceId == dev) = true
    · rw [if_pos h]
      cases j with
      | zero => right; exact ⟨p, by simp, by simpa using h, by simp⟩
      | succ j => left; simp
    · rw [if_neg h]
      cases j with
      | zero => left; simp
      | succ j => simpa using ih j

/-- C6: adding a player twice for the same device never creates a second
roster entry: the second call keeps the roster length, every roster field
except the renamed entry's name, and the game master unchanged; each slot is
either untouched or is the device's entry with its name set to the new name. -/
theorem c6_add_player_rename_not_duplicate (room : Room) (dev n₁ n₂ id₁ id₂ : String)
    (t₁ t₂ : Nat) :
    (addPlayer (addPlayer room dev n₁ id₁ t₁) dev n₂ id₂ t₂).players.length
        = (addPlayer room dev n₁ id₁ t₁).players.length ∧
    (addPlayer (addPlayer room dev n₁ id₁ t₁) dev n₂ id₂ t₂).gameMasterId
        = (addPlayer room dev n₁ id₁ t₁).gameMasterId ∧
    (addPlayer (addPlayer room dev n₁ id₁ t₁) dev n₂ id₂ t₂).phase
        = (addPlayer room dev n₁ id₁ t₁).phase ∧
    (addPlayer (addPlayer room dev n₁ id₁ t₁) dev n₂ id₂ t₂).playersWithScores
        = (addPlayer room dev n₁ id₁ t₁).playersWithScores ∧
    (addPlayer (addPlayer room dev n₁ id₁ t₁) dev n₂ id₂ t₂).history
        = (addPlayer room dev n₁ id₁ t₁).history ∧
    ∀ j : Nat,
      (addPlayer (addPlayer room dev n₁ id₁ t₁) dev n₂ id₂ t₂).players[j]?
          = (addPlayer room dev n₁ id₁ t₁).players[j]? ∨
        ∃ p, (addPlayer room dev n₁ id₁ t₁).players[j]? = some p ∧ p.deviceId = dev ∧
          (addPlayer (addPlayer room dev n₁ id₁ t₁) dev n₂ id₂ t₂).players[j]?
            = some { p with name := n₂ } := by
  have hany := any_dev_addPlayer room dev n₁ id₁ t₁
  rcases List.any_eq_true.mp hany with ⟨q0, hq0mem, hq0d⟩
  have hsome : ((addPlayer room dev n₁ id₁ t₁).players.find?
      (fun p => p.deviceId == dev)).isSome := List.find?_isSome.mpr ⟨q0, hq0mem, hq0d⟩
  rcases Option.isSome_iff_exists.mp hsome with ⟨q, hq⟩
  rw [addPlayer_of_find?_some hq]
  exact ⟨renameFirst_length _ _ _, rfl, rfl, rfl, rfl,
    fun j => renameFirst_getElem? _ _ _ j⟩

/-- Witness for C6 at a concrete double add. -/
theorem c6_witness :
    (addPlayer (addPlayer (initialRoom "R" 0) "d1" "Al" "p1" 1) "d1" "Alice" "p2" 2).players.length
      = (addPlayer (initialRoom "R" 0) "d1" "Al" "p1" 1).players.length :=
  (c6_add_player_rename_not_duplicate (initialRoom "R" 0) "d1" "Al" "Alice" "p1" "p2" 1 2).1

/-! ## Claim C3 -/

theorem gmInv_addPlayer (room : Room) (dev n f : String) (t : Nat) (h : gmInv room) :
    gmInv (addPlayer room dev n f t) := by
  unfold gmInv gmInvB at h ⊢
  unfold addPlayer
  cases hf : room.players.find? (fun p => p.deviceId == dev) with
  | some q =>
    dsimp only
    cases hg : room.gameMasterId with
    | none =>
      rw [hg] at h
      simpa [isEmpty_renameFirst] using h
    | some g =>
      rw [hg] at h
      simpa [any_id_renameFirst] using h
  | none =>
    dsimp only
    cases hg : room.gameMasterId with
    | none => simp [List.any_append]
    | some g =>
      rw [hg] at h
      dsimp only at h ⊢
      rw [List.any_append, h]
      simp

theorem gmInv_removePlayer (room : Room) (dev : String) (t : Nat) (h : gmInv room) :
    gmInv (removePlayer room dev t) := by
  unfold gmInv gmInvB at h ⊢
  unfold removePlayer
  cases hg : room.gameMasterId with
  | none =>
    rw [hg] at h
    have hnil : room.players = [] := by simpa using h
    simp [hnil]
  | some g =>
    rw [hg] at h
    dsimp only at h ⊢
    by_cases hk : ((room.players.filter (fun p => p.deviceId != dev)).any
        (fun p => p.id == g)) = true
    · rw [if_pos hk]
      exact hk
    · rw [if_neg hk]
      cases hrem : room.players.filter (fun p => p.deviceId != dev) with
      | nil => simp
      | cons p ps => simp

theorem gmInv_updateRoom (room : Room) (dev : String) (u : RoomUpdates) (t : Nat)
    (h : gmInv room) (hp : u.players = none) (hg : u.gameMasterId = none) :
    gmInv ((updateRoom room dev u t).1) := by
  unfold updateRoom
  by_cases hauth : isGameMaster room dev = true
  · unfold gmInv gmInvB at h ⊢
    simp only [hauth, if_true]
    simpa [applyUpdates, hp, hg] using h
  · simp only [Bool.not_eq_true] at hauth
    simp [hauth]
    exact h

theorem gmInv_playerSubmission (room : Room) (dev pid w s a : String) (t : Nat)
    (h : gmInv room) : gmInv ((playerSubmission room dev pid w s a t).1) := by
  unfold playerSubmission
  cases hf : room.players.find? (fun p => p.deviceId == dev) with
  | none => exact h
  | some p =>
    dsimp only
    by_cases hid : (p.id == pid) = true
    · simp only [hid, if_true]
      exact h
    · simp only [Bool.not_eq_true] at hid
      simp [hid]
      exact h

theorem gmInv_roundTimeout (room : Room) (dev w : String) (t : Nat)
    (h : gmInv room) : gmInv ((roundTimeout room dev w t).1) := by
  unfold roundTimeout
  by_cases hauth : isGameMaster room dev = true
  · simp only [hauth, if_true]
    exact h
  · simp only [Bool.not_eq_true] at hauth
    simp [hauth]
    exact h

theorem gmInv_roundSkip (room : Room) (dev w : String) (t : Nat)
    (h : gmInv room) : gmInv ((roundSkip room dev w t).1) := by
  unfold roundSkip
  by_cases hauth : isGameMaster room dev = true
  · simp only [hauth, if_true]
    exact h
  · simp only [Bool.not_eq_true] at hauth
    simp [hauth]
    exact h

theorem gmInv_applyOp (room : Room) (op : Op) (h : gmInv room)
    (hb : opKeepsRoster op = true) : gmInv (applyOp room op) := by
  cases op with
  | addPlayer d n f t => exact gmInv_addPlayer room d n f t h
  | removePlayer d t => exact gmInv_removePlayer room d t h
  | updateRoom d u t =>
    simp only [opKeepsRoster, Bool.and_eq_true, Option.isNone_iff_eq_none,
      decide_eq_true_eq] at hb
    exact gmInv_updateRoom room d u t h hb.1 hb.2
  | playerSubmission d p w s a t => exact gmInv_playerSubmission room d p w s a t h
  | roundTimeout d w t => exact gmInv_roundTimeout room d w t h
  | roundSkip d w t => exact gmInv_roundSkip room d w t h
  | disconnect d t => exact gmInv_removePlayer room d t h

theorem gmInv_foldl (ops : List Op) : ∀ room : Room, gmInv room →
    (∀ op ∈ ops, opKeepsRoster op = true) → gmInv (ops.foldl applyOp room) := by
  induction ops with
  | nil => exact fun room h _ => h
  | cons op ops ih =>
    intro room h hb
    exact ih _ (gmInv_applyOp room op h (hb op (List.mem_cons_self _ _)))
      (fun o ho => hb o (List.mem_cons_of_mem _ ho))

/-- C3 (amended): the game-master invariant — `gameMasterId` is `null` iff the
roster is empty and otherwise names a roster entry — holds after every message
sequence starting from a fresh room, provided each `update-room` patch leaves
`players` and `gameMasterId` untouched.  (An `update-room` patch that rewrites
those fields can break the invariant; see the counterexample.) -/
theorem c3_gm_invariant_amended (roomId : String) (now : Nat) (ops : List Op)
    (hb : ∀ op ∈ ops, opKeepsRoster op = true) : gmInv (runOps roomId now ops) :=
  gmInv_foldl ops (initialRoom roomId now) rfl hb

/-- A game-master `update-room` patch that empties the roster. -/
def opsBreakGmInv : List Op :=
  [.addPlayer "d1" "Alice" "p1" 1, .updateRoom "d1" { players := some [] } 2]

/-- Counterexample to C3 as stated: after the reachable sequence "Alice joins,
then (as game master) patches the room with `players := []`", the roster is
empty while `gameMasterId` still holds Alice's id, so the invariant is not
preserved by every sequence of the listed operations. -/
theorem c3_counterexample :
    (runOps "R" 0 opsBreakGmInv).players = [] ∧
    (runOps "R" 0 opsBreakGmInv).gameMasterId = some "p1" := by decide

/-- A mixed message sequence whose `update-room` patches keep the roster
fields, used to witness the amended C3. -/
def demoOps : List Op :=
  [.addPlayer "d1" "Alice" "p1" 1, .addPlayer "d2" "Bob" "p2" 2,
   .updateRoom "d1"
     { phase := some .playing, roundWords := some ["w1", "w2"], currentRound := some 0 } 3,
   .playerSubmission "d2" "p2" "w1" "Song" "Artist" 4,
   .roundTimeout "d1" "w2" 5,
   .removePlayer "d1" 6]

/-- Witness for the amended C3 on a concrete sequence. -/
theorem c3_witness :
    (∀ op ∈ demoOps, opKeepsRoster op = true) ∧ gmInv (runOps "R" 0 demoOps) :=
  ⟨by decide, c3_gm_invariant_amended "R" 0 demoOps (by decide)⟩

/-! ## Claim C4 -/

/-- A game-master `update-room` patch that pushes `currentRound` past the end
of `roundWords` without touching `phase`. -/
def opsBreakRoundBound : List Op :=
  [.addPlayer "d1" "Alice" "p1" 1,
   .updateRoom "d1" { roundWords := some ["w1"], currentRound := some 5 } 2]

/-- Counterexample to C4 as stated: a reachable room state has
`currentRound = 5 > 1 = len(roundWords)`, violating the claimed bound, and its
phase is still `lobby`, so the next broadcast does not show `leaderboard`
although `currentRound` has passed `len(roundWords)`. -/
theorem c4_counterexample :
    (runOps "R" 0 opsBreakRoundBound).currentRound = 5 ∧
    (runOps "R" 0 opsBreakRoundBound).roundWords.length = 1 ∧
    (runOps "R" 0 opsBreakRoundBound).phase = Phase.lobby := by decide

/-- C4 (amended): each *accepted* `player-submission`, `round-timeout` and
`round-skip` mutation advances `currentRound` by exactly one, leaves
`roundWords` unchanged, and sets `phase = leaderboard` in that same update
whenever the new `currentRound` has reached the length of `roundWords` — so
for these outcome mutations the very next broadcast shows `leaderboard`.  The
bound `currentRound ≤ len(roundWords)` is not an invariant of all reachable
states (see the counterexample), since neither these handlers nor
`update-room` are gated on the phase or the round bound. -/
theorem c4_round_advance_amended (room : Room) (dev pid w s a w₂ w₃ : String)
    (t₁ t₂ t₃ : Nat) :
    ((playerSubmission room dev pid w s a t₁).2 = true →
      (playerSubmission room dev pid w s a t₁).1.currentRound = room.currentRound + 1 ∧
      (playerSubmission room dev pid w s a t₁).1.roundWords = room.roundWords ∧
      ((playerSubmission room dev pid w s a t₁).1.roundWords.length
          ≤ (playerSubmission room dev pid w s a t₁).1.currentRound →
        (playerSubmission room dev pid w s a t₁).1.phase = .leaderboard)) ∧
    ((roundTimeout room dev w₂ t₂).2 = true →
      (roundTimeout room dev w₂ t₂).1.currentRound = room.currentRound + 1 ∧
      (roundTimeout room dev w₂ t₂).1.roundWords = room.roundWords ∧
      ((roundTimeout room dev w₂ t₂).1.roundWords.length
          ≤ (roundTimeout room dev w₂ t₂).1.currentRound →
        (roundTimeout room dev w₂ t₂).1.phase = .leaderboard)) ∧
    ((roundSkip room dev w₃ t₃).2 = true →
      (roundSkip room dev w₃ t₃).1.currentRound = room.currentRound + 1 ∧
      (roundSkip room dev w₃ t₃).1.roundWords = room.roundWords ∧
      ((roundSkip room dev w₃ t₃).1.roundWords.length
          ≤ (roundSkip room dev w₃ t₃).1.currentRound →
        (roundSkip room dev w₃ t₃).1.phase = .leaderboard)) := by
  refine ⟨?_, ?_, ?_⟩
  · unfold playerSubmission
    cases hf : room.players.find? (fun p => p.deviceId == dev) with
    | none => intro hacc; exact absurd hacc (by simp)
    | some p =>
      dsimp only
      by_cases hid : (p.id == pid) = true
      · rw [if_pos hid]
        intro _
        refine ⟨rfl, rfl, fun hle => ?_⟩
        have hle' : room.roundWords.length ≤ room.currentRound + 1 := hle
        show (if room.roundWords.length ≤ room.currentRound + 1 then Phase.leaderboard
          else room.phase) = Phase.leaderboard
        rw [if_pos hle']
      · simp only [Bool.not_eq_true] at hid
        simp [hid]
  · unfold roundTimeout
    by_cases hauth : isGameMaster room dev = true
    · rw [if_pos hauth]
      intro _
      refine ⟨rfl, rfl, fun hle => ?_⟩
      have hle' : room.roundWords.length ≤ room.currentRound + 1 := hle
      show (if room.roundWords.length ≤ room.currentRound + 1 then Phase.leaderboard
        else room.phase) = Phase.leaderboard
      rw [if_pos hle']
    · simp only [Bool.not_eq_true] at hauth
      simp [hauth]
  · unfold roundSkip
    by_cases hauth : isGameMaster room dev = true
    · rw [if_pos hauth]
      intro _
      refine ⟨rfl, rfl, fun hle => ?_⟩
      have hle' : room.roundWords.length ≤ room.currentRound + 1 := hle
      show (if room.roundWords.length ≤ room.currentRound + 1 then Phase.leaderboard
        else room.phase) = Phase.leaderboard
      rw [if_pos hle']
    · simp only [Bool.not_eq_true] at hauth
      simp [hauth]

/-- Witness for the amended C4 at a concrete accepted submission. -/
theorem c4_witness :
    (playerSubmission demoRoom "d2" "p2" "w1" "Song" "Artist" 1).2 = true ∧
    (playerSubmission demoRoom "d2" "p2" "w1" "Song" "Artist" 1).1.currentRound
      = demoRoom.currentRound + 1 :=
  ⟨by decide,
    ((c4_round_advance_amended demoRoom "d2" "p2" "w1" "Song" "Artist" "x" "y" 1 2 3).1
      (by decide)).1⟩

/-! ## Claim C1 -/

/-- C1 (code-bug evaluation): in `demoRoom` (phase `playing`, round index 0,
words `["w1", "w2"]`), Bob's accepted submission for `"w1"` advances the round,
and Alice's subsequently processed `round-timeout` for the same word `"w1"` is
*also* accepted: the handlers contain no stale-round check (the messages carry
no round index), so the room ends with two history entries for the one played
round, `currentRound = 2`, and phase `leaderboard` — where the claim requires
the second mutation to be a no-op, exactly one history entry, and
`currentRound = 1`. -/
theorem c1_double_outcome_eval :
    (playerSubmission demoRoom "d2" "p2" "w1" "Song" "Artist" 1).2 = true ∧
    (roundTimeout (playerSubmission demoRoom "d2" "p2" "w1" "Song" "Artist" 1).1
        "d1" "w1" 2).2 = true ∧
    ((roundTimeout (playerSubmission demoRoom "d2" "p2" "w1" "Song" "Artist" 1).1
        "d1" "w1" 2).1).history.length = 2 ∧
    ((roundTimeout (playerSubmission demoRoom "d2" "p2" "w1" "Song" "Artist" 1).1
        "d1" "w1" 2).1).currentRound = 2 ∧
    ((roundTimeout (playerSubmission demoRoom "d2" "p2" "w1" "Song" "Artist" 1).1
        "d1" "w1" 2).1).phase = Phase.leaderboard := by decide

/-! ## Claim C10 -/

/-- A room whose `gameMasterId` dangles (reachable through an `update-room`
patch rewriting `gameMasterId`): one player, game master id `"ghost"`. -/
def ghostGmRoom : Room :=
  { initialRoom "R" 0 with
      players := [{ id := "p1", name := "Alice", deviceId := "d1" }]
      gameMasterId := some "ghost" }

/-- Counterexample to C10 as stated: removing device `"d2"` matches no roster
entry (so the removed device's player was certainly not the game master), yet
`gameMasterId` changes from `"ghost"` to `"p1"`, because the handler
reassigns whenever the incumbent id is missing from the filtered roster. -/
theorem c10_counterexample :
    (∀ p ∈ ghostGmRoom.players, ¬(p.deviceId = "d2" ∧ ghostGmRoom.gameMasterId = some p.id)) ∧
    (removePlayer ghostGmRoom "d2" 1).players = ghostGmRoom.players ∧
    ghostGmRoom.gameMasterId = some "ghost" ∧
    (removePlayer ghostGmRoom "d2" 1).gameMasterId = some "p1" := by decide

/-- C10 (amended): for every room satisfying the game-master invariant
(`gameMasterId` is `null` or names a roster entry), `remove-player` removes
exactly the roster entries with the given `deviceId`, preserving the relative
order of the remaining ones; if the removed device's player was not the game
master (including a no-match removal) `gameMasterId` is unchanged; and
`phase`, `roundDuration`, `roundWords`, `currentRound`, `playersWithScores`
and `history` are unchanged in all cases. -/
theorem c10_remove_player_frame_amended (room : Room) (dev : String) (t : Nat)
    (hinv : gmInv room) :
    List.Sublist (removePlayer room dev t).players room.players ∧
    (∀ p ∈ room.players, p.deviceId ≠ dev → p ∈ (removePlayer room dev t).players) ∧
    (∀ p ∈ (removePlayer room dev t).players, p ∈ room.players ∧ p.deviceId ≠ dev) ∧
    ((∀ p ∈ room.players, ¬(p.deviceId = dev ∧ room.gameMasterId = some p.id)) →
      (removePlayer room dev t).gameMasterId = room.gameMasterId) ∧
    (removePlayer room dev t).phase = room.phase ∧
    (removePlayer room dev t).roundDuration = room.roundDuration ∧
    (removePlayer room dev t).roundWords = room.roundWords ∧
    (removePlayer room dev t).currentRound = room.currentRound ∧
    (removePlayer room dev t).playersWithScores = room.playersWithScores ∧
    (removePlayer room dev t).history = room.history := by
  have hplayers : (removePlayer room dev t).players
      = room.players.filter (fun p => p.deviceId != dev) := by
    unfold removePlayer
    rfl
  refine ⟨?_, ?_, ?_, ?_, rfl, rfl, rfl, rfl, rfl, rfl⟩
  · rw [hplayers]; exact List.filter_sublist _
  · intro p hp hpd
    rw [hplayers]
    exact List.mem_filter.mpr ⟨hp, by simpa using hpd⟩
  · intro p hp
    rw [hplayers] at hp
    rcases List.mem_filter.mp hp with ⟨hmem, hpd⟩
    exact ⟨hmem, by simpa using hpd⟩
  · intro hno
    unfold gmInv gmInvB at hinv
    unfold removePlayer
    cases hg : room.gameMasterId with
    | none => rfl
    | some g =>
      rw [hg] at hinv
      dsimp only at hinv ⊢
      rcases List.any_eq_true.mp hinv with ⟨q, hqmem, hqid⟩
      have hqid' : q.id = g := by simpa using hqid
      have hqdev : q.deviceId ≠ dev := by
        intro hqd
        exact hno q hqmem ⟨hqd, by rw [hqid']; exact hg⟩
      have hqrem : q ∈ room.players.filter (fun p => p.deviceId != dev) :=
        List.mem_filter.mpr ⟨hqmem, by simpa using hqdev⟩
      have hk : ((room.players.filter (fun p => p.deviceId != dev)).any
          (fun p => p.id == g)) = true :=
        List.any_eq_true.mpr ⟨q, hqrem, by simpa using hqid'⟩
      rw [if_pos hk]

/-- Witness for the amended C10: removing a device with no roster entry from a
well-formed room leaves the game master unchanged. -/
theorem c10_witness :
    gmInv demoRoom ∧ (removePlayer demoRoom "dX" 7).gameMasterId = demoRoom.gameMasterId :=
  ⟨by decide,
    (c10_remove_player_frame_amended demoRoom "dX" 7 (by decide)).2.2.2.1 (by decide)⟩

/-! ## Claim C7 -/

/-- C7 (code-bug evaluation): the word-match step does perform case-insensitive
whole-word matching with pluralization variants in the regular `-s`/`-es`
directions — in particular `cats` matches lyrics containing `cat` and vice
versa, and `boxes` yields `box` — but the `-ies`/`-y` and `-ves`/`-f`/`-fe`
singular-direction branches are dead code: every word ending in `-ies` or
`-ves` also ends in `-es` and is caught by the earlier `-es` test, so
`getWordVariants "cities" = ["cities", "citi"]` (the source comment promises
`cities -> city`) and `"leaves"` yields `"leav"`, not `"leaf"`; consequently
the target `cities` fails against lyrics containing `city`. -/
theorem c7_pluralization_eval :
    "cat" ∈ getWordVariants "cats" ∧
    "cats" ∈ getWordVariants "cat" ∧
    wordMatchStep "the cat sat on the mat" "cats" = true ∧
    wordMatchStep "two cats sat down" "cat" = true ∧
    "box" ∈ getWordVariants "boxes" ∧
    "cities" ∈ getWordVariants "city" ∧
    getWordVariants "cities" = ["cities", "citi"] ∧
    "city" ∉ getWordVariants "cities" ∧
    "leaf" ∉ getWordVariants "leaves" ∧
    wordMatchStep "the city lights" "cities" = false := by decide

/-! ## Claim C9 -/

/-- Counterexample to C9 as stated: for the whitespace word `" "` the variants
are `[" "]`, which does not include the lowercased trimmed original `""`; and
for the word `"cat! "` the submitted word occurs verbatim as a whole word
(case-insensitively) in the lyrics `"x cat! y"` — the trailing space is
followed by a word character, giving a `\b` boundary — yet the word-match step
rejects, because trimming turned the variant into `"cat!"`, whose final `!`
sits next to a space and so has no `\b` boundary. -/
theorem c9_counterexample :
    jsTrim (jsToLower " ") = "" ∧
    getWordVariants " " = [" "] ∧
    "" ∉ getWordVariants " " ∧
    jsTrim (jsToLower "cat! ") = "cat!" ∧
    regexTestWholeWord "x cat! y" "cat! " = true ∧
    wordMatchStep "x cat! y" "cat! " = false := by decide

/-- C9 (amended): for every target word whose lowercased trimmed form is
non-empty, `getWordVariants` includes that lowercased trimmed form among the
variants, so whenever it occurs as a whole word (case-insensitively) in the
fetched lyrics the word-match step reports a match: the pluralization handling
only adds accepted forms on top of the lowercased trimmed word. -/
theorem c9_lowered_word_always_accepted (word lyrics : String)
    (h : jsTrim (jsToLower word) ≠ "") :
    jsTrim (jsToLower word) ∈ getWordVariants word ∧
    (regexTestWholeWord lyrics (jsTrim (jsToLower word)) = true →
      wordMatchStep lyrics word = true) := by
  refine ⟨lower_mem_getWordVariants word h, fun hm => ?_⟩
  unfold wordMatchStep
  exact List.any_eq_true.mpr ⟨_, lower_mem_getWordVariants word h, hm⟩

/-- Witness for the amended C9 at a concrete word and lyrics text. -/
theorem c9_witness :
    jsTrim (jsToLower "Cat") ≠ "" ∧
    regexTestWholeWord "my cat runs" (jsTrim (jsToLower "Cat")) = true ∧
    wordMatchStep "my cat runs" "Cat" = true :=
  ⟨by decide, by decide,
    (c9_lowered_word_always_accepted "Cat" "my cat runs" (by decide)).2 (by decide)⟩

/-! ## Claim C8 -/

/-- Counterexample to C8 as stated: with pool `["a", "b"]`, empty history,
word list `["a"]` and round index 0, the word `"b"` is an eligible replacement
— in the pool, absent from history and from the earlier slots, and different
from the current word — yet the reshuffle draw can return the current word
itself (the handler deletes it from the used set before filtering), leaving
the slot holding `"a"` rather than replacing it with another pool word. -/
theorem c8_counterexample :
    reshuffleWord ["a", "b"] [] ["a"] 0 0 = ["a"] ∧
    "b" ∈ (["a", "b"] : List String) ∧
    "b" ∉ ([] : List HistoryEntry).map (fun e => e.word) ∧
    "b" ∉ (["a"] : List String).take 0 ∧
    "b" ≠ "a" := by decide

/-- C8 (amended): when the current round index is in range, the reshuffle
leaves the length and every other index of the word list unchanged, and either
returns the list unchanged or overwrites the current slot with a pool word
that is the current word itself (which always stays eligible, since the
handler deletes it from the used set) or is absent from the history and from
the earlier slots; when no pool word survives the eligibility filter the list
is returned unchanged. -/
theorem c8_reshuffle_amended (pool : List String) (history : List HistoryEntry)
    (prev : List String) (cur pick : Nat) (hcur : cur < prev.length) :
    (reshuffleWord pool history prev cur pick).length = prev.length ∧
    (∀ j : Nat, j ≠ cur → (reshuffleWord pool history prev cur pick)[j]? = prev[j]?) ∧
    (reshuffleWord pool history prev cur pick = prev ∨
      ∃ w, w ∈ pool ∧
        (w = prev.getD cur "" ∨
          (w ∉ history.map (fun e => e.word) ∧ w ∉ prev.take cur)) ∧
        reshuffleWord pool history prev cur pick = prev.set cur w) ∧
    (pool.filter (fun w =>
        !((((history.map (fun e => e.word)) ++ prev.take cur).filter
            (fun w₂ => w₂ != prev.getD cur "")).contains w)) = [] →
      reshuffleWord pool history prev cur pick = prev) := by
  have hne : ¬(prev.length = 0) := by omega
  unfold reshuffleWord
  rw [if_neg hne]
  dsimp only
  by_cases hc : (pool.filter (fun w =>
      !((((history.map (fun e => e.word)) ++ prev.take cur).filter
          (fun w₂ => w₂ != prev.getD cur "")).contains w))).length = 0
  · rw [if_pos hc]
    exact ⟨rfl, fun j _ => rfl, Or.inl rfl, fun _ => rfl⟩
  · rw [if_neg hc]
    set candidates := pool.filter (fun w =>
      !((((history.map (fun e => e.word)) ++ prev.take cur).filter
          (fun w₂ => w₂ != prev.getD cur "")).contains w)) with hcand
    have hlen : 0 < candidates.length := Nat.pos_of_ne_zero hc
    have hidx : pick % candidates.length < candidates.length := Nat.mod_lt _ hlen
    have hw : candidates.getD (pick % candidates.length) ""
        = candidates[pick % candidates.length] := by
      rw [List.getD_eq_getElem?_getD, List.getElem?_eq_getElem hidx]
      rfl
    have hwmem : candidates.getD (pick % candidates.length) "" ∈ candidates := by
      rw [hw]; exact List.getElem_mem hidx
    rcases List.mem_filter.mp hwmem with ⟨hwpool, hwpred⟩
    have hwnotused : candidates.getD (pick % candidates.length) ""
        ∉ (((history.map (fun e => e.word)) ++ prev.take cur).filter
            (fun w₂ => w₂ != prev.getD cur "")) := by
      intro hmem
      rw [Bool.not_eq_true'] at hwpred
      exact absurd (List.elem_iff.mpr hmem) (by simp [List.contains] at hwpred ⊢; exact hwpred)
    refine ⟨List.length_set .., fun j hj => List.getElem?_set_ne (Ne.symm hj), ?_, ?_⟩
    · right
      refine ⟨candidates.getD (pick % candidates.length) "", hwpool, ?_, rfl⟩
      by_cases hcw : candidates.getD (pick % candidates.length) "" = prev.getD cur ""
      · exact Or.inl hcw
      · right
        have hnu : candidates.getD (pick % candidates.length) ""
            ∉ ((history.map (fun e => e.word)) ++ prev.take cur) := by
          intro hmem
          exact hwnotused (List.mem_filter.mpr ⟨hmem, by simpa using hcw⟩)
        rw [List.mem_append] at hnu
        push_neg at hnu
        exact hnu
    · intro hempty
      rw [hempty] at hlen
      simp at hlen

/-- Witness for the amended C8 at a concrete in-range reshuffle. -/
theorem c8_witness :
    (0 : Nat) < (["w1", "w2"] : List String).length ∧
    (reshuffleWord ["a", "b", "w1"] [] ["w1", "w2"] 0 1).length
      = (["w1", "w2"] : List String).length :=
  ⟨by decide, (c8_reshuffle_amended ["a", "b", "w1"] [] ["w1", "w2"] 0 1 (by decide)).1⟩

end SongGame
